import Mathlib

/-!
Verification of the CaRSA climate-index functions (`src/prelim/carsa.py`)
against their natural-language specification.

Modelling conventions (shallow embedding of the xarray/numpy code):

* A `DataArray` along the time dimension is a `List` indexed by time step.
* Input arrays hold plain finite floats; a float value is modelled as an
  exact rational (`ℚ`).  Derived arrays may contain NaN (from incomplete
  rolling windows, shifts, or 0/0), modelled as `Option ℚ` / `Option ℝ`
  with `none` standing for NaN.
* Elementwise float arithmetic propagates NaN, hence the `o*` operations
  below propagate `none`.  Division maps a zero denominator to `none`:
  in the one place the code can divide by zero (the drought-factor
  rescaling with `max p20 = min p20`) the numerator is zero as well, so
  IEEE gives `0/0 = NaN`, which `none` models exactly.
* `DataArray.min()` / `.max()` / `.quantile()` skip NaN (xarray default
  `skipna=True` for float data), so they act on the defined entries.
* The closing FFDI formula uses the real `exp` and real power, which live
  in `ℝ`; all structure that decides definedness stays in `ℚ` and is
  executable.
-/

namespace Carsa

/-- NaN-propagating addition on float values (`none` = NaN). -/
def oadd (a b : Option ℚ) : Option ℚ :=
  a.bind fun x => b.map fun y => x + y

/-- NaN-propagating subtraction on float values (`none` = NaN). -/
def osub (a b : Option ℚ) : Option ℚ :=
  a.bind fun x => b.map fun y => x - y

/-- NaN-propagating multiplication on float values (`none` = NaN). -/
def omul (a b : Option ℚ) : Option ℚ :=
  a.bind fun x => b.map fun y => x * y

/-- NaN-propagating division; a zero denominator yields NaN (see the
module comment: in this code a zero denominator only occurs together
with a zero numerator, where IEEE division gives NaN). -/
def odiv (a b : Option ℚ) : Option ℚ :=
  a.bind fun x => b.bind fun y => if y = 0 then none else some (x / y)

/-- The trailing window of length `w` ending at step `i`:
`xs[i+1-w], …, xs[i]`. -/
def window (w : ℕ) (xs : List ℚ) (i : ℕ) : List ℚ :=
  (xs.drop (i + 1 - w)).take w

/-- `DataArray.rolling({time: w}).sum()`: at step `i` the sum of the
trailing `w` entries, NaN while the window is incomplete (`i + 1 < w`). -/
def rollingSum (w : ℕ) (xs : List ℚ) : List (Option ℚ) :=
  (List.range xs.length).map fun i =>
    if w ≤ i + 1 then some (window w xs i).sum else none

/-- The defined (non-NaN) entries of a derived array. -/
def definedVals (xs : List (Option ℚ)) : List ℚ :=
  xs.filterMap id

/-- Minimum of a value and a list (left fold of the binary minimum). -/
def foldMin (v : ℚ) (vs : List ℚ) : ℚ :=
  vs.foldl (fun a b => if a ≤ b then a else b) v

/-- Maximum of a value and a list (left fold of the binary maximum). -/
def foldMax (v : ℚ) (vs : List ℚ) : ℚ :=
  vs.foldl (fun a b => if b ≤ a then a else b) v

/-- `DataArray.min(dim)` with NaN skipped: minimum of the defined
entries, NaN when there is none. -/
def nanMin (xs : List (Option ℚ)) : Option ℚ :=
  match definedVals xs with
  | [] => none
  | v :: vs => some (foldMin v vs)

/-- `DataArray.max(dim)` with NaN skipped: maximum of the defined
entries, NaN when there is none. -/
def nanMax (xs : List (Option ℚ)) : Option ℚ :=
  match definedVals xs with
  | [] => none
  | v :: vs => some (foldMax v vs)

/-- The 20-day accumulated rainfall `p20 = precip.rolling({time: 20}).sum()`. -/
def p20 (precip : List ℚ) : List (Option ℚ) :=
  rollingSum 20 precip

/-- The drought factor of `FFDI`:
`D = -10 * ((p20 - p20.min(time)) / (p20.max(time) - p20.min(time))) + 10`. -/
def droughtD (precip : List ℚ) : List (Option ℚ) :=
  let p := p20 precip
  let mn := nanMin p
  let mx := nanMax p
  p.map fun x => oadd (omul (some (-10)) (odiv (osub x mn) (osub mx mn))) (some 10)

/-- The elementwise closing formula of `FFDI`:
`d ** 0.987 * exp(0.0338 * tmax - 0.0345 * rh + 0.0234 * wmax + 0.243147)`
(real power and exponential; NaN in `d` propagates). -/
noncomputable def ffdiFormula (d : Option ℚ) (t h w : ℚ) : Option ℝ :=
  d.map fun dv =>
    (dv : ℝ) ^ (0.987 : ℝ) *
      Real.exp (0.0338 * (t : ℝ) - 0.0345 * (h : ℝ) + 0.0234 * (w : ℝ) + 0.243147)

/-- `FFDI(precip, rh, tmax, wmax)`: the McArthur Forest Fire Danger Index,
`D ** 0.987 * np.exp(0.0338 * tmax - 0.0345 * rh + 0.0234 * wmax + 0.243147)`. -/
noncomputable def FFDI (precip rh tmax wmax : List ℚ) : List (Option ℝ) :=
  List.zipWith (fun d thw => ffdiFormula d thw.1 thw.2.1 thw.2.2)
    (droughtD precip) (tmax.zip (rh.zip wmax))

/-! Definitions for `excess_heat_factor`. -/

/-- Insert a value into an ascending list, keeping it sorted. -/
def sortedInsert (x : ℚ) : List ℚ → List ℚ
  | [] => [x]
  | y :: ys => if x ≤ y then x :: y :: ys else y :: sortedInsert x ys

/-- Sort a list of float values ascending (insertion sort). -/
def isort : List ℚ → List ℚ
  | [] => []
  | x :: xs => sortedInsert x (isort xs)

/-- `DataArray.quantile(q=0.95, dim=time)`: the numpy quantile with the
default linear interpolation.  With `n` values sorted ascending as `s`,
the virtual index is `h = 0.95 * (n - 1) = 19 * (n - 1) / 20`, and the
result is `s[k] + (h - k) * (s[k+1] - s[k])` with `k = ⌊h⌋`.  An empty
selection yields NaN. -/
def quantile95 (xs : List ℚ) : Option ℚ :=
  if xs.isEmpty then none
  else
    let n := xs.length
    let s := isort xs
    let m := 19 * (n - 1)
    let k := m / 20
    let g : ℚ := (m : ℚ) / 20 - (k : ℚ)
    let lo := s.getD k 0
    some (lo + g * (s.getD (k + 1) lo - lo))

/-- `temp.sel({time_dim: climatology_slice})`: a label slice selects the
inclusive index range `a..b`; `none` (the default) keeps the full series. -/
def selSlice (clim : Option (ℕ × ℕ)) (temp : List ℚ) : List ℚ :=
  match clim with
  | none => temp
  | some (a, b) => (temp.drop a).take (b + 1 - a)

/-- The heatwave threshold `t_95`: 95th percentile of `temp`, over the
climatology slice when one is given, else over the full period. -/
def t_95 (temp : List ℚ) (clim : Option (ℕ × ℕ)) : Option ℚ :=
  quantile95 (selSlice clim temp)

/-- `three_day_mean = temp.rolling({time: 3}).sum() / 3`. -/
def three_day_mean (temp : List ℚ) : List (Option ℚ) :=
  (rollingSum 3 temp).map (Option.map (· / 3))

/-- `thirty_day_mean = temp.rolling({time: 30}).sum() / 30`. -/
def thirty_day_mean (temp : List ℚ) : List (Option ℚ) :=
  (rollingSum 30 temp).map (Option.map (· / 30))

/-- `DataArray.shift({time: k})`: values move `k` steps toward later
times; the first `k` steps become NaN. -/
def shiftForward (k : ℕ) (xs : List (Option ℚ)) : List (Option ℚ) :=
  (List.replicate k none ++ xs).take xs.length

/-- `ehi_sig = three_day_mean - t_95`. -/
def ehi_sig (temp : List ℚ) (clim : Option (ℕ × ℕ)) : List (Option ℚ) :=
  (three_day_mean temp).map fun x => osub x (t_95 temp clim)

/-- `ehi_accl = three_day_mean - thirty_day_mean.shift({time: 3})`. -/
def ehi_accl (temp : List ℚ) : List (Option ℚ) :=
  List.zipWith osub (three_day_mean temp) (shiftForward 3 (thirty_day_mean temp))

/-- One element of `xr.where(ehi_accl > 1, ehi_accl, 1)`.  The comparison
`NaN > 1` is `False`, so a NaN input falls through to the literal `1`. -/
def whereGt1 (a : Option ℚ) : Option ℚ :=
  match a with
  | some v => if 1 < v then some v else some 1
  | none => some 1

/-- `ehi_accl_min_1 = xr.where(ehi_accl > 1, ehi_accl, 1)`. -/
def ehi_accl_min_1 (temp : List ℚ) : List (Option ℚ) :=
  (ehi_accl temp).map whereGt1

/-- `excess_heat_factor(temp, climatology_slice)`: returns
`ehi_sig * ehi_accl_min_1`. -/
def excess_heat_factor (temp : List ℚ) (clim : Option (ℕ × ℕ)) : List (Option ℚ) :=
  List.zipWith omul (ehi_sig temp clim) (ehi_accl_min_1 temp)

/-- The trailing `w`-step mean of `temp` ending at step `i` (used to
state properties of the rolling means). -/
def trailingMean (w : ℕ) (temp : List ℚ) (i : ℕ) : ℚ :=
  (window w temp i).sum / w

/-! Spec-side definitions for the refinement claim about `FFDI`, written
from the specification text rather than from the code. -/

/-- Spec-side `p20` at step `i`: the trailing 20-step sum of `precip`
along the time axis, undefined for the first 19 steps where the window
is incomplete. -/
def specP20 (precip : List ℚ) (i : ℕ) : Option ℚ :=
  if 19 ≤ i ∧ i < precip.length then some ((precip.drop (i - 19)).take 20).sum
  else none

/-- Spec-side `min(p20)`: global minimum over the whole time axis (over
the steps where `p20` is defined). -/
def specMin (precip : List ℚ) : Option ℚ :=
  match (List.range precip.length).filterMap (specP20 precip) with
  | [] => none
  | v :: vs => some (foldMin v vs)

/-- Spec-side `max(p20)`: global maximum over the whole time axis (over
the steps where `p20` is defined). -/
def specMax (precip : List ℚ) : Option ℚ :=
  match (List.range precip.length).filterMap (specP20 precip) with
  | [] => none
  | v :: vs => some (foldMax v vs)

/-- Spec-side drought proxy
`D = -10 * (p20 - min(p20)) / (max(p20) - min(p20)) + 10`, undefined
where `p20` is undefined or where the denominator vanishes. -/
def specD (precip : List ℚ) (i : ℕ) : Option ℚ :=
  match specP20 precip i, specMin precip, specMax precip with
  | some p, some mn, some mx =>
      if mx - mn = 0 then none else some (-10 * (p - mn) / (mx - mn) + 10)
  | _, _, _ => none

/-- Spec-side FFDI value at step `i`:
`D^0.987 * exp(0.0338*tmax - 0.0345*rh + 0.0234*wmax + 0.243147)`
applied elementwise. -/
noncomputable def specFFDI (precip rh tmax wmax : List ℚ) (i : ℕ) : Option ℝ :=
  (specD precip i).map fun d =>
    (d : ℝ) ^ (0.987 : ℝ) *
      Real.exp (0.0338 * (tmax.getD i 0 : ℝ) - 0.0345 * (rh.getD i 0 : ℝ) +
        0.0234 * (wmax.getD i 0 : ℝ) + 0.243147)

/-- Example input of the spec: `precip = [0]*19 + [100]`, a 20-step series. -/
def c4precip : List ℚ := List.replicate 19 0 ++ [100]

/-- Example input of the spec: the other meteorological fields constant at 0. -/
def c4zeros : List ℚ := List.replicate 20 0

/-! General lemmas about the embedded operations. -/

theorem range_getElem? (n i : ℕ) :
    (List.range n)[i]? = if i < n then some i else none := by
  split
  · exact List.getElem?_range ‹_›
  · exact List.getElem?_eq_none (by simpa using Nat.le_of_not_lt ‹_›)

theorem length_rollingSum (w : ℕ) (xs : List ℚ) :
    (rollingSum w xs).length = xs.length := by
  simp [rollingSum]

theorem rollingSum_getElem (w : ℕ) (xs : List ℚ) (i : ℕ) (h : i < xs.length) :
    (rollingSum w xs)[i]? =
      some (if w ≤ i + 1 then some (window w xs i).sum else none) := by
  simp [rollingSum, List.getElem?_map, range_getElem?, h]

theorem length_p20 (precip : List ℚ) : (p20 precip).length = precip.length :=
  length_rollingSum 20 precip

theorem length_droughtD (precip : List ℚ) :
    (droughtD precip).length = precip.length := by
  simp [droughtD, length_p20]

theorem droughtD_getElem (precip : List ℚ) (i : ℕ) {x : Option ℚ}
    (hx : (p20 precip)[i]? = some x) :
    (droughtD precip)[i]? =
      some (oadd (omul (some (-10)) (odiv (osub x (nanMin (p20 precip)))
        (osub (nanMax (p20 precip)) (nanMin (p20 precip))))) (some 10)) := by
  simp [droughtD, List.getElem?_map, hx]

theorem droughtD_elt_of_min_eq_max (x mn : Option ℚ) :
    oadd (omul (some (-10)) (odiv (osub x mn) (osub mn mn))) (some 10) = none := by
  cases mn <;> cases x <;> simp [oadd, omul, odiv, osub]

theorem zip3_getElem (rh tmax wmax : List ℚ) (i : ℕ)
    (hrh : i < rh.length) (ht : i < tmax.length) (hw : i < wmax.length) :
    (tmax.zip (rh.zip wmax))[i]? = some (tmax.getD i 0, rh.getD i 0, wmax.getD i 0) := by
  rw [List.zip, List.zip, List.getElem?_zipWith, List.getElem?_zipWith,
    List.getElem?_eq_getElem ht, List.getElem?_eq_getElem hrh, List.getElem?_eq_getElem hw,
    List.getD_eq_getElem _ _ ht, List.getD_eq_getElem _ _ hrh, List.getD_eq_getElem _ _ hw]

/-- C5: with `max(p20) = min(p20)` (e.g. constant precipitation), the
drought rescaling divides zero by zero, so `FFDI` silently returns NaN at
every time step; no error is raised and the result keeps its full length
(there is no guard branch). -/
theorem FFDI_constant_p20_all_nan (precip rh tmax wmax : List ℚ)
    (hconst : nanMax (p20 precip) = nanMin (p20 precip)) :
    (∀ i, i < precip.length → i < rh.length → i < tmax.length → i < wmax.length →
      (FFDI precip rh tmax wmax)[i]? = some none)
    ∧ (rh.length = precip.length → tmax.length = precip.length →
        wmax.length = precip.length →
        (FFDI precip rh tmax wmax).length = precip.length) := by
  constructor
  · intro i hp hrh ht hw
    have hx : (p20 precip)[i]? = some ((p20 precip).getD i none) := by
      rw [List.getD_eq_getElem _ _ (by rwa [length_p20])]
      exact List.getElem?_eq_getElem _
    rw [FFDI, List.getElem?_zipWith, droughtD_getElem precip i hx,
      zip3_getElem rh tmax wmax i hrh ht hw, hconst,
      droughtD_elt_of_min_eq_max]
    simp [ffdiFormula]
  · intro hrh ht hw
    simp [FFDI, length_droughtD, hrh, ht, hw]

/-- C5 witness: constant precipitation over 25 steps yields NaN at step 5. -/
theorem FFDI_constant_p20_all_nan_witness :
    nanMax (p20 (List.replicate 25 3)) = nanMin (p20 (List.replicate 25 3))
    ∧ (FFDI (List.replicate 25 3) (List.replicate 25 0) (List.replicate 25 0)
        (List.replicate 25 0))[5]? = some none := by
  have hc : nanMax (p20 (List.replicate 25 3)) = nanMin (p20 (List.replicate 25 3)) := by
    norm_num [nanMax, nanMin, p20, rollingSum, window, definedVals, foldMin, foldMax,
      List.range_succ, List.filterMap_cons, id_eq]
  exact ⟨hc,
    (FFDI_constant_p20_all_nan (List.replicate 25 3) (List.replicate 25 0)
      (List.replicate 25 0) (List.replicate 25 0) hc).1 5
      (by simp) (by simp) (by simp) (by simp)⟩

/-- C4 counterexample: on `precip = [0]*19 + [100]` with the other inputs
constant at zero, the FFDI value at the last step is NaN (because `p20` has
a single defined value, so `max(p20) = min(p20)` and the drought rescaling
is 0/0), not `exp(0.243147)` as the claim states. -/
theorem FFDI_example_not_exp :
    (FFDI c4precip c4zeros c4zeros c4zeros)[19]? ≠ some (some (Real.exp 0.243147)) := by
  have hd : (p20 c4precip)[19]? = some (some 100) := by
    norm_num [p20, c4precip, rollingSum, window, List.range_succ]
  have hz : (c4zeros.zip (c4zeros.zip c4zeros))[19]? = some (0, 0, 0) := by
    norm_num [c4zeros]
  rw [FFDI, List.getElem?_zipWith, droughtD_getElem c4precip 19 hd, hz]
  have hmn : nanMin (p20 c4precip) = some 100 := by
    norm_num [nanMin, p20, c4precip, rollingSum, window, definedVals, foldMin,
      List.range_succ, List.filterMap_cons, id_eq]
  have hmx : nanMax (p20 c4precip) = some 100 := by
    norm_num [nanMax, p20, c4precip, rollingSum, window, definedVals, foldMax,
      List.range_succ, List.filterMap_cons, id_eq]
  rw [hmn, hmx]
  simp [ffdiFormula, oadd, omul, odiv, osub]

theorem foldMin_le_init (v : ℚ) (vs : List ℚ) : foldMin v vs ≤ v := by
  induction vs generalizing v with
  | nil => exact le_refl v
  | cons b tl ih =>
      show foldMin (if v ≤ b then v else b) tl ≤ v
      refine le_trans (ih _) ?_
      split
      · exact le_refl v
      · exact le_of_not_le ‹_›

theorem foldMin_le_mem {u : ℚ} (v : ℚ) (vs : List ℚ) (hu : u ∈ vs) :
    foldMin v vs ≤ u := by
  induction vs generalizing v with
  | nil => cases hu
  | cons b tl ih =>
      show foldMin (if v ≤ b then v else b) tl ≤ u
      rcases List.mem_cons.mp hu with rfl | hmem
      · refine le_trans (foldMin_le_init _ tl) ?_
        split
        · exact ‹_›
        · exact le_refl u
      · exact ih _ hmem

theorem le_foldMax_init (v : ℚ) (vs : List ℚ) : v ≤ foldMax v vs := by
  induction vs generalizing v with
  | nil => exact le_refl v
  | cons b tl ih =>
      show v ≤ foldMax (if b ≤ v then v else b) tl
      refine le_trans ?_ (ih _)
      split
      · exact le_refl v
      · exact le_of_not_le ‹_›

theorem le_foldMax_mem {u : ℚ} (v : ℚ) (vs : List ℚ) (hu : u ∈ vs) :
    u ≤ foldMax v vs := by
  induction vs generalizing v with
  | nil => cases hu
  | cons b tl ih =>
      show u ≤ foldMax (if b ≤ v then v else b) tl
      rcases List.mem_cons.mp hu with rfl | hmem
      · refine le_trans ?_ (le_foldMax_init _ tl)
        split
        · exact ‹_›
        · exact le_refl u
      · exact ih _ hmem

theorem mem_definedVals {xs : List (Option ℚ)} {u : ℚ} :
    u ∈ definedVals xs ↔ some u ∈ xs := by
  simp [definedVals, List.mem_filterMap]

theorem nanMin_le {xs : List (Option ℚ)} {a u : ℚ} (h : nanMin xs = some a)
    (hu : some u ∈ xs) : a ≤ u := by
  have hu2 : u ∈ definedVals xs := mem_definedVals.mpr hu
  unfold nanMin at h
  cases hdef : definedVals xs with
  | nil => rw [hdef] at hu2; cases hu2
  | cons v vs =>
      rw [hdef] at h hu2
      have hva : foldMin v vs = a := by injection h
      rcases List.mem_cons.mp hu2 with rfl | hmem
      · exact hva ▸ foldMin_le_init u vs
      · exact hva ▸ foldMin_le_mem v vs hmem

theorem le_nanMax {xs : List (Option ℚ)} {b u : ℚ} (h : nanMax xs = some b)
    (hu : some u ∈ xs) : u ≤ b := by
  have hu2 : u ∈ definedVals xs := mem_definedVals.mpr hu
  unfold nanMax at h
  cases hdef : definedVals xs with
  | nil => rw [hdef] at hu2; cases hu2
  | cons v vs =>
      rw [hdef] at h hu2
      have hvb : foldMax v vs = b := by injection h
      rcases List.mem_cons.mp hu2 with rfl | hmem
      · exact hvb ▸ le_foldMax_init u vs
      · exact hvb ▸ le_foldMax_mem v vs hmem

theorem droughtD_val (precip : List ℚ) {i : ℕ} {u a b : ℚ}
    (hmn : nanMin (p20 precip) = some a) (hmx : nanMax (p20 precip) = some b)
    (hne : b - a ≠ 0) (hu : (p20 precip)[i]? = some (some u)) :
    (droughtD precip)[i]? = some (some (-10 * ((u - a) / (b - a)) + 10)) := by
  rw [droughtD_getElem precip i hu, hmn, hmx]
  simp [oadd, omul, odiv, osub, hne]

/-- C8: when `max(p20) > min(p20)`, the drought factor `D` lies in
`[0, 10]` at every step where it is defined, is `10` at the global
minimum of `p20` and `0` at the global maximum, and is antitone in
`p20`. -/
theorem droughtD_range_and_antitone (precip : List ℚ) (a b : ℚ)
    (hmn : nanMin (p20 precip) = some a) (hmx : nanMax (p20 precip) = some b)
    (hab : a < b) :
    (∀ (i : ℕ) (v : ℚ), (droughtD precip)[i]? = some (some v) → 0 ≤ v ∧ v ≤ 10)
    ∧ (∀ i : ℕ, (p20 precip)[i]? = some (some a) →
        (droughtD precip)[i]? = some (some 10))
    ∧ (∀ i : ℕ, (p20 precip)[i]? = some (some b) →
        (droughtD precip)[i]? = some (some 0))
    ∧ (∀ (i j : ℕ) (u v x y : ℚ), (p20 precip)[i]? = some (some u) →
        (p20 precip)[j]? = some (some v) → v ≤ u →
        (droughtD precip)[i]? = some (some x) →
        (droughtD precip)[j]? = some (some y) → x ≤ y) := by
  have hne : b - a ≠ 0 := sub_ne_zero.mpr (ne_of_gt hab)
  have hba : 0 < b - a := by linarith
  have hval : ∀ (i : ℕ) (v : ℚ), (droughtD precip)[i]? = some (some v) →
      ∃ u : ℚ, (p20 precip)[i]? = some (some u) ∧ v = -10 * ((u - a) / (b - a)) + 10 := by
    intro i v hv
    have hi : i < precip.length := by
      have h1 := (List.getElem?_eq_some_iff.mp hv).1
      rwa [length_droughtD] at h1
    cases hx : (p20 precip)[i]? with
    | none =>
        rw [List.getElem?_eq_none_iff, length_p20] at hx
        omega
    | some x =>
        rw [droughtD_getElem precip i hx, hmn, hmx] at hv
        cases x with
        | none => simp [oadd, omul, odiv, osub] at hv
        | some u =>
            refine ⟨u, rfl, ?_⟩
            simp [oadd, omul, odiv, osub, hne] at hv
            linarith [hv]
  refine ⟨?_, ?_, ?_, ?_⟩
  · intro i v hv
    obtain ⟨u, hu, rfl⟩ := hval i v hv
    have hmem : some u ∈ p20 precip := by
      obtain ⟨hlt, hEq⟩ := List.getElem?_eq_some_iff.mp hu
      exact hEq ▸ List.getElem_mem hlt
    have h1 : a ≤ u := nanMin_le hmn hmem
    have h2 : u ≤ b := le_nanMax hmx hmem
    have ht1 : 0 ≤ (u - a) / (b - a) := div_nonneg (by linarith) (le_of_lt hba)
    have ht2 : (u - a) / (b - a) ≤ 1 := (div_le_one hba).mpr (by linarith)
    constructor <;> nlinarith
  · intro i hi
    rw [droughtD_val precip hmn hmx hne hi]
    norm_num
  · intro i hi
    rw [droughtD_val precip hmn hmx hne hi, div_self hne]
    norm_num
  · intro i j u v x y hu hv huv hx hy
    rw [droughtD_val precip hmn hmx hne hu] at hx
    rw [droughtD_val precip hmn hmx hne hv] at hy
    have hx2 : x = -10 * ((u - a) / (b - a)) + 10 := by
      have h1 := Option.some.inj (Option.some.inj hx)
      exact h1.symm
    have hy2 : y = -10 * ((v - a) / (b - a)) + 10 := by
      have h1 := Option.some.inj (Option.some.inj hy)
      exact h1.symm
    have hdiv : (v - a) / (b - a) ≤ (u - a) / (b - a) := by
      rw [div_le_div_iff₀ hba hba]
      nlinarith
    subst hx2 hy2
    linarith

/-- Witness input for the drought-factor claims: strictly increasing
precipitation over 21 steps. -/
def c8precip : List ℚ :=
  [0, 1, 2, 3, 4, 5, 6, 7, 8, 9, 10, 11, 12, 13, 14, 15, 16, 17, 18, 19, 20]

/-- C8 witness: on strictly increasing precipitation, `min(p20) = 190 <
210 = max(p20)`, and the drought factor at the maximising step is 0. -/
theorem droughtD_range_witness :
    nanMin (p20 c8precip) = some 190 ∧ nanMax (p20 c8precip) = some 210
    ∧ ((190 : ℚ) < 210)
    ∧ (droughtD c8precip)[20]? = some (some 0) := by
  have hmn : nanMin (p20 c8precip) = some 190 := by
    norm_num [nanMin, p20, c8precip, rollingSum, window, definedVals, foldMin,
      List.range_succ, List.filterMap_cons, id_eq]
  have hmx : nanMax (p20 c8precip) = some 210 := by
    norm_num [nanMax, p20, c8precip, rollingSum, window, definedVals, foldMax,
      List.range_succ, List.filterMap_cons, id_eq]
  have hp : (p20 c8precip)[20]? = some (some 210) := by
    norm_num [p20, c8precip, rollingSum, window, List.range_succ]
  exact ⟨hmn, hmx, by norm_num,
    (droughtD_range_and_antitone c8precip 190 210 hmn hmx (by norm_num)).2.2.1 20 hp⟩

/-- C4 amended: on `precip = [0]*19 + [100]` with the other inputs constant
at zero, `p20` at the last step is 100, while the drought factor and the
FFDI at the last step are NaN: `p20` has a single defined value, so
`max(p20) = min(p20)` and the rescaling divides zero by zero. -/
theorem FFDI_example_last_step :
    (p20 c4precip)[19]? = some (some 100)
    ∧ (droughtD c4precip)[19]? = some none
    ∧ (FFDI c4precip c4zeros c4zeros c4zeros)[19]? = some none := by
  have hd : (p20 c4precip)[19]? = some (some 100) := by
    norm_num [p20, c4precip, rollingSum, window, List.range_succ]
  have hz : (c4zeros.zip (c4zeros.zip c4zeros))[19]? = some (0, 0, 0) := by
    norm_num [c4zeros]
  have hmn : nanMin (p20 c4precip) = some 100 := by
    norm_num [nanMin, p20, c4precip, rollingSum, window, definedVals, foldMin,
      List.range_succ, List.filterMap_cons, id_eq]
  have hmx : nanMax (p20 c4precip) = some 100 := by
    norm_num [nanMax, p20, c4precip, rollingSum, window, definedVals, foldMax,
      List.range_succ, List.filterMap_cons, id_eq]
  refine ⟨hd, ?_, ?_⟩
  · rw [droughtD_getElem c4precip 19 hd, hmn, hmx]
    simp [oadd, omul, odiv, osub]
  · rw [FFDI, List.getElem?_zipWith, droughtD_getElem c4precip 19 hd, hz, hmn, hmx]
    simp [ffdiFormula, oadd, omul, odiv, osub]

theorem rolling20_eq_specP20 (precip : List ℚ) (i : ℕ) (h : i < precip.length) :
    (if 20 ≤ i + 1 then some (window 20 precip i).sum else none) = specP20 precip i := by
  unfold specP20 window
  rcases Nat.lt_or_ge i 19 with hlt | hge
  · rw [if_neg (by omega), if_neg (by omega)]
  · rw [if_pos (by omega), if_pos ⟨hge, h⟩]
    have he : i + 1 - 20 = i - 19 := by omega
    rw [he]

theorem p20_getElem_spec (precip : List ℚ) (i : ℕ) (h : i < precip.length) :
    (p20 precip)[i]? = some (specP20 precip i) := by
  rw [p20, rollingSum_getElem 20 precip i h, rolling20_eq_specP20 precip i h]

theorem definedVals_p20 (precip : List ℚ) :
    definedVals (p20 precip) =
      (List.range precip.length).filterMap (specP20 precip) := by
  rw [definedVals, p20, rollingSum, List.filterMap_map]
  refine List.filterMap_congr ?_
  intro x hx
  simp only [Function.comp_apply, id_eq]
  exact rolling20_eq_specP20 precip x (List.mem_range.mp hx)

theorem nanMin_eq_specMin (precip : List ℚ) :
    nanMin (p20 precip) = specMin precip := by
  unfold nanMin specMin
  rw [definedVals_p20]

theorem nanMax_eq_specMax (precip : List ℚ) :
    nanMax (p20 precip) = specMax precip := by
  unfold nanMax specMax
  rw [definedVals_p20]

theorem droughtD_eq_specD (precip : List ℚ) (i : ℕ) (h : i < precip.length) :
    (droughtD precip)[i]? = some (specD precip i) := by
  rw [droughtD_getElem precip i (p20_getElem_spec precip i h), nanMin_eq_specMin,
    nanMax_eq_specMax]
  unfold specD
  rcases hP : specP20 precip i with _ | p <;>
    rcases hmn2 : specMin precip with _ | mn <;>
      rcases hmx2 : specMax precip with _ | mx <;>
        simp only [oadd, omul, odiv, osub, Option.bind_none, Option.bind_some,
          Option.map_none, Option.map_some, Option.map, Option.bind]
  by_cases hz : mx - mn = 0
  · simp [hz]
  · simp only [hz, if_false, Option.some.injEq]
    ring_nf

/-- C1: elementwise, `FFDI` returns
`D^0.987 * exp(0.0338*tmax - 0.0345*rh + 0.0234*wmax + 0.243147)`, where
`p20` is the trailing 20-step sum of `precip` along the time axis and
`D = -10 * (p20 - min(p20)) / (max(p20) - min(p20)) + 10` with the
min/max taken globally over the time axis, exactly as the specification
states. -/
theorem FFDI_refines_spec (precip rh tmax wmax : List ℚ)
    (hrh : rh.length = precip.length) (ht : tmax.length = precip.length)
    (hw : wmax.length = precip.length) (i : ℕ) (h : i < precip.length) :
    (FFDI precip rh tmax wmax)[i]? = some (specFFDI precip rh tmax wmax i) := by
  rw [FFDI, List.getElem?_zipWith, droughtD_eq_specD precip i h,
    zip3_getElem rh tmax wmax i (by omega) (by omega) (by omega)]
  rcases hd : specD precip i with _ | d <;> simp [hd, ffdiFormula, specFFDI]

/-- C1 witness: the refinement instantiated on strictly increasing
precipitation over 21 steps, at the last step. -/
theorem FFDI_refines_spec_witness :
    (FFDI c8precip (List.replicate 21 0) (List.replicate 21 0)
        (List.replicate 21 0))[20]? =
      some (specFFDI c8precip (List.replicate 21 0) (List.replicate 21 0)
        (List.replicate 21 0) 20) :=
  FFDI_refines_spec c8precip (List.replicate 21 0) (List.replicate 21 0)
    (List.replicate 21 0) (by simp [c8precip]) (by simp [c8precip])
    (by simp [c8precip]) 20 (by simp [c8precip])

/-! Elementwise lemmas for the `excess_heat_factor` pipeline. -/

theorem length_three_day_mean (temp : List ℚ) :
    (three_day_mean temp).length = temp.length := by
  simp [three_day_mean, length_rollingSum]

theorem length_thirty_day_mean (temp : List ℚ) :
    (thirty_day_mean temp).length = temp.length := by
  simp [thirty_day_mean, length_rollingSum]

theorem length_shiftForward (k : ℕ) (xs : List (Option ℚ)) :
    (shiftForward k xs).length = xs.length := by
  simp [shiftForward]

theorem length_ehi_accl (temp : List ℚ) :
    (ehi_accl temp).length = temp.length := by
  simp [ehi_accl, length_three_day_mean, length_shiftForward, length_thirty_day_mean]

theorem length_excess_heat_factor (temp : List ℚ) (clim : Option (ℕ × ℕ)) :
    (excess_heat_factor temp clim).length = temp.length := by
  simp [excess_heat_factor, ehi_sig, ehi_accl_min_1, length_ehi_accl,
    length_three_day_mean]

theorem three_day_mean_getElem (temp : List ℚ) (i : ℕ) (h : i < temp.length) :
    (three_day_mean temp)[i]? =
      some (if 3 ≤ i + 1 then some (trailingMean 3 temp i) else none) := by
  rw [three_day_mean, List.getElem?_map, rollingSum_getElem 3 temp i h]
  rcases le_or_lt 3 (i + 1) with hc | hc
  · rw [if_pos hc, if_pos hc]
    simp [trailingMean]
  · rw [if_neg (by omega), if_neg (by omega)]
    rfl

theorem thirty_day_mean_getElem (temp : List ℚ) (i : ℕ) (h : i < temp.length) :
    (thirty_day_mean temp)[i]? =
      some (if 30 ≤ i + 1 then some (trailingMean 30 temp i) else none) := by
  rw [thirty_day_mean, List.getElem?_map, rollingSum_getElem 30 temp i h]
  rcases le_or_lt 30 (i + 1) with hc | hc
  · rw [if_pos hc, if_pos hc]
    simp [trailingMean]
  · rw [if_neg (by omega), if_neg (by omega)]
    rfl

theorem shiftForward_getElem (k : ℕ) (xs : List (Option ℚ)) (i : ℕ)
    (h : i < xs.length) :
    (shiftForward k xs)[i]? = if i < k then some none else xs[i - k]? := by
  rw [shiftForward, List.getElem?_take, if_pos h, List.getElem?_append,
    List.length_replicate]
  rcases lt_or_ge i k with hik | hik
  · rw [if_pos hik, if_pos hik, List.getElem?_replicate, if_pos hik]
  · rw [if_neg (by omega), if_neg (by omega)]

theorem ehi_sig_getElem (temp : List ℚ) (clim : Option (ℕ × ℕ)) (i : ℕ)
    (h : i < temp.length) :
    (ehi_sig temp clim)[i]? =
      some (osub (if 3 ≤ i + 1 then some (trailingMean 3 temp i) else none)
        (t_95 temp clim)) := by
  rw [ehi_sig, List.getElem?_map, three_day_mean_getElem temp i h]
  rfl

theorem ehi_accl_getElem (temp : List ℚ) (i : ℕ) (h : i < temp.length) :
    (ehi_accl temp)[i]? =
      some (if 32 ≤ i then
        some (trailingMean 3 temp i - trailingMean 30 temp (i - 3)) else none) := by
  rw [ehi_accl, List.getElem?_zipWith, three_day_mean_getElem temp i h,
    shiftForward_getElem 3 _ i (by rw [length_thirty_day_mean]; exact h)]
  rcases lt_or_ge i 3 with h3 | h3
  · have e1 : (if i < 3 then (some none : Option (Option ℚ))
        else (thirty_day_mean temp)[i - 3]?) = some none := if_pos h3
    rw [e1, if_neg (by omega : ¬32 ≤ i)]
    rcases le_or_lt 3 (i + 1) with hc | hc
    · rw [if_pos hc]
      simp [osub]
    · rw [if_neg (by omega : ¬3 ≤ i + 1)]
      simp [osub]
  · have e1 : (if i < 3 then (some none : Option (Option ℚ))
        else (thirty_day_mean temp)[i - 3]?) = (thirty_day_mean temp)[i - 3]? :=
      if_neg (by omega)
    rw [e1, thirty_day_mean_getElem temp (i - 3) (by omega),
      if_pos (by omega : 3 ≤ i + 1)]
    rcases le_or_lt 32 i with h32 | h32
    · rw [if_pos (by omega : 30 ≤ i - 3 + 1), if_pos h32]
      simp [osub]
    · rw [if_neg (by omega : ¬30 ≤ i - 3 + 1), if_neg (by omega : ¬32 ≤ i)]
      simp [osub]

theorem whereGt1_some (v : ℚ) : whereGt1 (some v) = some (max 1 v) := by
  show (if 1 < v then some v else some 1) = some (max 1 v)
  rcases le_or_lt v 1 with h | h
  · rw [if_neg (not_lt.mpr h), max_eq_left h]
  · rw [if_pos h, max_eq_right (le_of_lt h)]

theorem whereGt1_ge_one (a : Option ℚ) : ∃ f : ℚ, whereGt1 a = some f ∧ 1 ≤ f := by
  cases a with
  | none => exact ⟨1, rfl, le_refl 1⟩
  | some v => exact ⟨max 1 v, whereGt1_some v, le_max_left 1 v⟩

theorem ehi_accl_min_1_getElem (temp : List ℚ) (i : ℕ) {x : Option ℚ}
    (hx : (ehi_accl temp)[i]? = some x) :
    (ehi_accl_min_1 temp)[i]? = some (whereGt1 x) := by
  rw [ehi_accl_min_1, List.getElem?_map, hx]
  rfl

theorem EHF_getElem (temp : List ℚ) (clim : Option (ℕ × ℕ)) (i : ℕ)
    (h : i < temp.length) :
    (excess_heat_factor temp clim)[i]? =
      some (omul
        (osub (if 3 ≤ i + 1 then some (trailingMean 3 temp i) else none)
          (t_95 temp clim))
        (whereGt1 (if 32 ≤ i then
          some (trailingMean 3 temp i - trailingMean 30 temp (i - 3)) else none))) := by
  rw [excess_heat_factor, List.getElem?_zipWith, ehi_sig_getElem temp clim i h,
    ehi_accl_min_1_getElem temp i (ehi_accl_getElem temp i h)]

theorem EHF_val_full (temp : List ℚ) (clim : Option (ℕ × ℕ)) (q : ℚ)
    (hq : t_95 temp clim = some q) (i : ℕ) (h32 : 32 ≤ i) (hn : i < temp.length) :
    (excess_heat_factor temp clim)[i]? =
      some (some ((trailingMean 3 temp i - q) *
        max 1 (trailingMean 3 temp i - trailingMean 30 temp (i - 3)))) := by
  rw [EHF_getElem temp clim i hn, hq, if_pos (by omega : 3 ≤ i + 1), if_pos h32,
    whereGt1_some]
  simp [osub, omul]

theorem EHF_val_mid (temp : List ℚ) (clim : Option (ℕ × ℕ)) (q : ℚ)
    (hq : t_95 temp clim = some q) (i : ℕ) (h2 : 2 ≤ i) (h32 : i < 32)
    (hn : i < temp.length) :
    (excess_heat_factor temp clim)[i]? =
      some (some ((trailingMean 3 temp i - q) * 1)) := by
  rw [EHF_getElem temp clim i hn, hq, if_pos (by omega : 3 ≤ i + 1),
    if_neg (by omega : ¬32 ≤ i)]
  simp [whereGt1, osub, omul]

theorem EHF_val_head (temp : List ℚ) (clim : Option (ℕ × ℕ)) (i : ℕ)
    (h2 : i < 2) (hn : i < temp.length) :
    (excess_heat_factor temp clim)[i]? = some none := by
  rw [EHF_getElem temp clim i hn, if_neg (by omega : ¬3 ≤ i + 1)]
  simp [osub, omul]


/-! Quantile and replicate lemmas. -/

theorem sortedInsert_replicate (c : ℚ) (m : ℕ) :
    sortedInsert c (List.replicate m c) = List.replicate (m + 1) c := by
  cases m with
  | zero => rfl
  | succ k =>
      show (if c ≤ c then c :: c :: List.replicate k c
        else c :: sortedInsert c (List.replicate k c)) = _
      rw [if_pos (le_refl c)]
      rfl

theorem isort_replicate (c : ℚ) (n : ℕ) :
    isort (List.replicate n c) = List.replicate n c := by
  induction n with
  | zero => rfl
  | succ k ih =>
      show sortedInsert c (isort (List.replicate k c)) = _
      rw [ih, sortedInsert_replicate]

theorem getD_replicate (c d : ℚ) (n i : ℕ) :
    (List.replicate n c).getD i d = if i < n then c else d := by
  rw [List.getD_eq_getElem?_getD, List.getElem?_replicate]
  split <;> rfl

theorem quantile95_replicate (c : ℚ) (n : ℕ) (hn : 0 < n) :
    quantile95 (List.replicate n c) = some c := by
  unfold quantile95
  rw [if_neg (by simp [List.isEmpty_iff]; omega)]
  simp only [List.length_replicate, isort_replicate, getD_replicate]
  have hk : 19 * (n - 1) / 20 < n := by omega
  rw [if_pos hk]
  split
  · simp
  · simp

theorem trailingMean_replicate (w : ℕ) (hw : w ≠ 0) (c : ℚ) (n i : ℕ)
    (hiw : w ≤ i + 1) (hin : i < n) :
    trailingMean w (List.replicate n c) i = c := by
  unfold trailingMean window
  rw [List.drop_replicate, List.take_replicate]
  have hmin : min w (n - (i + 1 - w)) = w := by omega
  rw [hmin, List.sum_replicate, nsmul_eq_mul]
  have hw2 : (w : ℚ) ≠ 0 := Nat.cast_ne_zero.mpr hw
  rw [mul_comm, mul_div_assoc, div_self hw2, mul_one]

/-- C2: for every temperature series (and optional climatology slice)
whose 95th-percentile threshold `q` is defined, at every step where both
rolling windows are complete the EHF equals `ehi_sig * max(1, ehi_accl)`,
with `ehi_sig` the trailing 3-step mean minus `q` and `ehi_accl` the
trailing 3-step mean minus the trailing 30-step mean ending 3 steps
earlier. -/
theorem excess_heat_factor_formula (temp : List ℚ) (clim : Option (ℕ × ℕ)) (q : ℚ)
    (hq : t_95 temp clim = some q) (i : ℕ) (h32 : 32 ≤ i) (hn : i < temp.length) :
    (excess_heat_factor temp clim)[i]? =
      some (some ((trailingMean 3 temp i - q) *
        max 1 (trailingMean 3 temp i - trailingMean 30 temp (i - 3)))) :=
  EHF_val_full temp clim q hq i h32 hn

/-- C2 witness: the formula instantiated on a constant 33-step series at
the last step. -/
theorem excess_heat_factor_formula_witness :
    t_95 (List.replicate 33 7) none = some 7
    ∧ (excess_heat_factor (List.replicate 33 7) none)[32]? =
        some (some ((trailingMean 3 (List.replicate 33 7) 32 - 7) *
          max 1 (trailingMean 3 (List.replicate 33 7) 32 -
            trailingMean 30 (List.replicate 33 7) (32 - 3)))) := by
  have hq : t_95 (List.replicate 33 7) none = some 7 :=
    quantile95_replicate 7 33 (by omega)
  exact ⟨hq, excess_heat_factor_formula (List.replicate 33 7) none 7 hq 32
    (by omega) (by simp)⟩

/-- C7: a constant temperature series yields EHF = 0 at every time step
where both rolling windows are fully covered. -/
theorem EHF_constant_zero (n : ℕ) (c : ℚ) (i : ℕ) (h32 : 32 ≤ i) (hn : i < n) :
    (excess_heat_factor (List.replicate n c) none)[i]? = some (some 0) := by
  have hq : t_95 (List.replicate n c) none = some c :=
    quantile95_replicate c n (by omega)
  rw [EHF_val_full (List.replicate n c) none c hq i h32 (by simpa using hn),
    trailingMean_replicate 3 (by omega) c n i (by omega) hn,
    trailingMean_replicate 30 (by omega) c n (i - 3) (by omega) (by omega)]
  simp

/-- C7 witness: a constant 33-step series at step 32. -/
theorem EHF_constant_zero_witness :
    (excess_heat_factor (List.replicate 33 5) none)[32]? = some (some 0) :=
  EHF_constant_zero 33 5 32 (by omega) (by omega)

/-- C9: at steps 2..31, where the 3-step window is complete but the
shifted 30-step window is not, `ehi_accl` is NaN; the `xr.where` floor
maps that NaN to 1, so the output is the defined value `ehi_sig * 1`. -/
theorem EHF_nan_accl_floored (temp : List ℚ) (clim : Option (ℕ × ℕ)) (q : ℚ)
    (hq : t_95 temp clim = some q) (hlen : 33 ≤ temp.length) (i : ℕ)
    (h2 : 2 ≤ i) (h31 : i ≤ 31) :
    (ehi_accl temp)[i]? = some none
    ∧ (excess_heat_factor temp clim)[i]? =
        some (some ((trailingMean 3 temp i - q) * 1)) := by
  have hn : i < temp.length := by omega
  exact ⟨by rw [ehi_accl_getElem temp i hn, if_neg (by omega : ¬32 ≤ i)],
    EHF_val_mid temp clim q hq i h2 (by omega) hn⟩

/-- C9 witness: a constant 33-step series at step 5. -/
theorem EHF_nan_accl_floored_witness :
    t_95 (List.replicate 33 4) none = some 4
    ∧ (ehi_accl (List.replicate 33 4))[5]? = some none
    ∧ (excess_heat_factor (List.replicate 33 4) none)[5]? =
        some (some ((trailingMean 3 (List.replicate 33 4) 5 - 4) * 1)) := by
  have hq : t_95 (List.replicate 33 4) none = some 4 :=
    quantile95_replicate 4 33 (by omega)
  have h := EHF_nan_accl_floored (List.replicate 33 4) none 4 hq (by simp) 5
    (by omega) (by omega)
  exact ⟨hq, h.1, h.2⟩

/-- C6: whenever `ehi_accl` is defined and below 1, the floored
acclimatisation term used in the returned product is exactly 1 (not the
raw smaller value), so the output is `ehi_sig * 1`. -/
theorem EHF_accl_floor_applied (temp : List ℚ) (clim : Option (ℕ × ℕ)) (q v : ℚ)
    (i : ℕ) (hq : t_95 temp clim = some q)
    (hv : (ehi_accl temp)[i]? = some (some v)) (hlt : v < 1) :
    (ehi_accl_min_1 temp)[i]? = some (some 1)
    ∧ (excess_heat_factor temp clim)[i]? =
        some (some ((trailingMean 3 temp i - q) * 1)) := by
  have hn : i < temp.length := by
    have h1 := (List.getElem?_eq_some_iff.mp hv).1
    rwa [length_ehi_accl] at h1
  have h32 : 32 ≤ i := by
    by_contra hcon
    rw [ehi_accl_getElem temp i hn, if_neg (by omega)] at hv
    simp at hv
  have hv2 : trailingMean 3 temp i - trailingMean 30 temp (i - 3) = v := by
    rw [ehi_accl_getElem temp i hn, if_pos h32] at hv
    exact Option.some.inj (Option.some.inj hv)
  constructor
  · rw [ehi_accl_min_1_getElem temp i hv, whereGt1_some,
      max_eq_left (le_of_lt hlt)]
  · rw [EHF_val_full temp clim q hq i h32 hn, hv2,
      max_eq_left (le_of_lt hlt)]

/-- C6 witness: a constant 33-step series at step 32, where `ehi_accl` is
0 < 1 and the floored factor is 1. -/
theorem EHF_accl_floor_applied_witness :
    t_95 (List.replicate 33 5) none = some 5
    ∧ (ehi_accl (List.replicate 33 5))[32]? = some (some 0)
    ∧ ((0 : ℚ) < 1)
    ∧ (ehi_accl_min_1 (List.replicate 33 5))[32]? = some (some 1) := by
  have hq : t_95 (List.replicate 33 5) none = some 5 :=
    quantile95_replicate 5 33 (by omega)
  have hacc : (ehi_accl (List.replicate 33 5))[32]? = some (some 0) := by
    rw [ehi_accl_getElem (List.replicate 33 5) 32 (by simp),
      if_pos (by omega : 32 ≤ 32),
      trailingMean_replicate 3 (by omega) 5 33 32 (by omega) (by omega),
      trailingMean_replicate 30 (by omega) 5 33 (32 - 3) (by omega) (by omega)]
    simp
  exact ⟨hq, hacc, by norm_num,
    (EHF_accl_floor_applied (List.replicate 33 5) none 5 0 32 hq hacc
      (by norm_num)).1⟩

/-- C3 counterexample: at step 5 of a constant 33-step series the 30-day
window is incomplete, yet the EHF output is the defined number 0, not a
missing value, contradicting the claim that every step with an incomplete
30-day window is missing. -/
theorem EHF_defined_at_incomplete_thirty :
    (excess_heat_factor (List.replicate 33 5) none)[5]? = some (some 0)
    ∧ (excess_heat_factor (List.replicate 33 5) none)[5]? ≠ some none := by
  have hq : t_95 (List.replicate 33 5) none = some 5 :=
    quantile95_replicate 5 33 (by omega)
  have h1 : (excess_heat_factor (List.replicate 33 5) none)[5]? = some (some 0) := by
    rw [EHF_val_mid (List.replicate 33 5) none 5 hq 5 (by omega) (by omega)
      (by simp),
      trailingMean_replicate 3 (by omega) 5 33 5 (by omega) (by omega)]
    simp
  exact ⟨h1, by rw [h1]; simp⟩

/-- C3 amended: a rolling window of length `w` is missing exactly at the
first `w - 1` steps; `excess_heat_factor` (when its percentile threshold
is defined) is missing exactly at the first 2 steps, where the 3-day
window is incomplete — steps where only the 30-day window is incomplete
produce defined values because the NaN acclimatisation term is floored
to 1. -/
theorem rolling_warmup_and_EHF_missing :
    (∀ (w : ℕ) (xs : List ℚ) (i : ℕ), i < xs.length →
      ((rollingSum w xs)[i]? = some none ↔ i + 1 < w))
    ∧ (∀ (temp : List ℚ) (clim : Option (ℕ × ℕ)) (q : ℚ), t_95 temp clim = some q →
        ∀ i : ℕ, i < temp.length →
          ((excess_heat_factor temp clim)[i]? = some none ↔ i < 2)) := by
  constructor
  · intro w xs i h
    rw [rollingSum_getElem w xs i h]
    rcases le_or_lt w (i + 1) with hc | hc
    · rw [if_pos hc]
      exact iff_of_false (by simp) (by omega)
    · rw [if_neg (by omega)]
      exact iff_of_true rfl (by omega)
  · intro temp clim q hq i h
    rcases lt_or_ge i 2 with h2 | h2
    · rw [EHF_val_head temp clim i h2 h]
      exact iff_of_true rfl h2
    · rcases lt_or_ge i 32 with h32 | h32
      · rw [EHF_val_mid temp clim q hq i h2 h32 h]
        exact iff_of_false (by simp) (by omega)
      · rw [EHF_val_full temp clim q hq i h32 h]
        exact iff_of_false (by simp) (by omega)

/-- C3 witness: the second step of a 3-step rolling sum is missing, and
the second step of the EHF output on a constant 33-step series is
missing. -/
theorem rolling_warmup_and_EHF_missing_witness :
    ((rollingSum 3 [1, 2, 3, 4])[1]? = some none)
    ∧ ((excess_heat_factor (List.replicate 33 6) none)[1]? = some none) := by
  have hq : t_95 (List.replicate 33 6) none = some 6 :=
    quantile95_replicate 6 33 (by omega)
  exact ⟨(rolling_warmup_and_EHF_missing.1 3 [1, 2, 3, 4] 1 (by simp)).mpr
      (by omega),
    (rolling_warmup_and_EHF_missing.2 (List.replicate 33 6) none 6 hq 1
      (by simp)).mpr (by omega)⟩

/-- C10: wherever the EHF output is a defined number `y`, the floored
acclimatisation factor `f` is at least 1, `y = ehi_sig * f`, the output
has the sign of `ehi_sig` and at least its magnitude, and `y ≤ 0` exactly
when the 3-day mean does not exceed the 95th-percentile threshold. -/
theorem EHF_sign_magnitude (temp : List ℚ) (clim : Option (ℕ × ℕ)) (i : ℕ) (y : ℚ)
    (hy : (excess_heat_factor temp clim)[i]? = some (some y)) :
    ∃ q s f : ℚ, t_95 temp clim = some q ∧ s = trailingMean 3 temp i - q
      ∧ 1 ≤ f ∧ y = s * f ∧ |s| ≤ |y|
      ∧ (y ≤ 0 ↔ s ≤ 0) ∧ (0 ≤ y ↔ 0 ≤ s)
      ∧ (y ≤ 0 ↔ trailingMean 3 temp i ≤ q) := by
  have hn : i < temp.length := by
    have h1 := (List.getElem?_eq_some_iff.mp hy).1
    rwa [length_excess_heat_factor] at h1
  rw [EHF_getElem temp clim i hn] at hy
  cases hq : t_95 temp clim with
  | none =>
      rw [hq] at hy
      rcases le_or_lt 3 (i + 1) with hc | hc
      · rw [if_pos hc] at hy
        simp [osub, omul] at hy
      · rw [if_neg (by omega)] at hy
        simp [osub, omul] at hy
  | some q =>
      rw [hq] at hy
      rcases le_or_lt 3 (i + 1) with hc | hc
      · rw [if_pos hc] at hy
        obtain ⟨f, hf, hf1⟩ := whereGt1_ge_one
          (if 32 ≤ i then
            some (trailingMean 3 temp i - trailingMean 30 temp (i - 3)) else none)
        rw [hf] at hy
        have hy2 : (trailingMean 3 temp i - q) * f = y := by
          simpa [osub, omul] using hy
        have hf0 : 0 < f := lt_of_lt_of_le one_pos hf1
        refine ⟨q, trailingMean 3 temp i - q, f, rfl, rfl, hf1, hy2.symm, ?_, ?_, ?_, ?_⟩
        · rw [← hy2, abs_mul, abs_of_pos hf0]
          calc |trailingMean 3 temp i - q|
              = |trailingMean 3 temp i - q| * 1 := (mul_one _).symm
            _ ≤ |trailingMean 3 temp i - q| * f :=
                mul_le_mul_of_nonneg_left hf1 (abs_nonneg _)
        · constructor
          · intro h0
            nlinarith [hy2]
          · intro h0
            nlinarith [hy2]
        · constructor
          · intro h0
            nlinarith [hy2]
          · intro h0
            nlinarith [hy2]
        · rw [← sub_nonpos]
          constructor
          · intro h0
            nlinarith [hy2]
          · intro h0
            nlinarith [hy2]
      · rw [if_neg (by omega)] at hy
        simp [osub, omul] at hy

/-- C10 witness: a constant 33-step series at step 32, where the output
is the defined number 0. -/
theorem EHF_sign_magnitude_witness :
    ∃ q s f : ℚ, t_95 (List.replicate 33 5) none = some q
      ∧ s = trailingMean 3 (List.replicate 33 5) 32 - q
      ∧ 1 ≤ f ∧ (0 : ℚ) = s * f ∧ |s| ≤ |(0 : ℚ)|
      ∧ ((0 : ℚ) ≤ 0 ↔ s ≤ 0) ∧ ((0 : ℚ) ≤ 0 ↔ 0 ≤ s)
      ∧ ((0 : ℚ) ≤ 0 ↔ trailingMean 3 (List.replicate 33 5) 32 ≤ q) := by
  have hq : t_95 (List.replicate 33 5) none = some 5 :=
    quantile95_replicate 5 33 (by omega)
  have hy : (excess_heat_factor (List.replicate 33 5) none)[32]? =
      some (some 0) := by
    rw [EHF_val_full (List.replicate 33 5) none 5 hq 32 (by omega) (by simp),
      trailingMean_replicate 3 (by omega) 5 33 32 (by omega) (by omega),
      trailingMean_replicate 30 (by omega) 5 33 (32 - 3) (by omega) (by omega)]
    simp
  exact EHF_sign_magnitude (List.replicate 33 5) none 32 0 hy

end Carsa
